import Mathlib

/-!
# hyprlock: `CAsyncResourceGatherer` (src/renderer/AsyncResourceGatherer.cpp)

A shallow embedding of the asynchronous resource gatherer: the asset cache, the
preload target queue, the pending-requests buffer with its `pending` / `busy`
flags, and the operations `getAssetByID`, `gather`, `apply`, `renderText`,
one iteration of `asyncAssetSpinLock` and `requestAsyncAssetPreload`.

Conventions of the embedding

* `std::any` is a sum type; `std::any_cast<T>` on a value of another type and
  `unordered_map::at` on a missing key throw in the source, which is rendered
  here by `none`.
* `int` values are integers; the one `int` computation that can leave the 32-bit
  range, `FONTSIZE * PANGO_SCALE` in `renderText`, wraps around (`wrapInt32`).
* cairo and Pango are collaborators: the width/height of the surface decoded
  from a path and the Pango layout size of a text are parameters
  (`imageSize`, `layoutSize`).  Pixel buffers, GL calls and `Debug::log` do
  not influence the gatherer's state and are left out, as is the floating
  point `progress` counter.
* `std::unordered_map<std::string, SPreloadedAsset>` is an association list;
  `operator[]` updates the entry in place or appends a fresh one, so a list
  with distinct keys keeps distinct keys.
-/

namespace Hyprlock

/-! ## Data model -/

/-- Modelled from the spec: the content kind `eTargetType` is declared in
`AsyncResourceGatherer.hpp`, which is not among the sources; the code names the
two kinds image and text. -/
inductive eTargetType where
  | TARGET_IMAGE
  | TARGET_TEXT
  deriving DecidableEq, Repr

open eTargetType

/-- Pixel dimensions (`Vector2D`), always assigned from `int` values here. -/
structure Vector2D where
  x : Int
  y : Int
  deriving DecidableEq, Repr

/-- A value held by a `std::any` of a property bag: `int`, `std::string`,
`Hyprlang::STRING` (a C string), `CColor`, or a value of any other type. -/
inductive AnyValue where
  | int (n : Int)
  | string (s : String)
  | cstring (s : String)
  | color
  | other
  deriving DecidableEq, Repr

/-- The cast `std::any_cast<int>`: throws unless the value holds an `int`. -/
def anyCastInt : AnyValue → Option Int
  | .int n => some n
  | _ => none

/-- The cast `std::any_cast<std::string>`. -/
def anyCastString : AnyValue → Option String
  | .string s => some s
  | _ => none

/-- The cast `std::any_cast<Hyprlang::STRING>`. -/
def anyCastCString : AnyValue → Option String
  | .cstring s => some s
  | _ => none

/-- The cast `std::any_cast<CColor>`; the colour itself only reaches the
painted pixels. -/
def anyCastColor : AnyValue → Option Unit
  | .color => some ()
  | _ => none

/-- A property bag `std::unordered_map<std::string, std::any>`. -/
abbrev PropBag := List (String × AnyValue)

/-- Modelled from the spec: the widget descriptor handed over by the config
manager (`getWidgetConfigs`), a `type` string and a property bag `values`. -/
structure SWidgetConfig where
  type : String
  values : PropBag
  deriving DecidableEq, Repr

/-- The request record `SPreloadRequest`: kind, text payload `asset`, `id`, `props`. -/
structure SPreloadRequest where
  type : eTargetType
  asset : String
  id : String
  props : PropBag
  deriving DecidableEq, Repr

/-- The queue entry `SPreloadTarget`; the surface and pixel pointers are not
modelled. -/
structure SPreloadTarget where
  type : eTargetType
  id : String
  size : Vector2D
  deriving DecidableEq, Repr

/-- The texture `CTexture` of an asset, reduced to its size `m_vSize`. -/
structure CTexture where
  m_vSize : Vector2D
  deriving DecidableEq, Repr

/-- The cache entry `SPreloadedAsset`. -/
structure SPreloadedAsset where
  texture : CTexture
  deriving DecidableEq, Repr

/-- The record `asyncLoopState`: the pending-requests buffer and the two flags. -/
structure SAsyncLoopState where
  requests : List SPreloadRequest
  pending : Bool
  busy : Bool
  deriving DecidableEq, Repr

/-- The gatherer.  `applyCalls` is a ghost counter of `apply()` invocations,
absent from the source and read by no operation. -/
structure CAsyncResourceGatherer where
  assets : List (String × SPreloadedAsset)
  preloadTargets : List SPreloadTarget
  asyncLoopState : SAsyncLoopState
  ready : Bool
  applied : Bool
  applyCalls : Nat
  deriving DecidableEq, Repr

/-- The gatherer before `gather` has run: empty cache, empty queue, empty
request buffer, all flags cleared. -/
def initialGatherer : CAsyncResourceGatherer :=
  { assets := [], preloadTargets := [],
    asyncLoopState := { requests := [], pending := false, busy := false },
    ready := false, applied := false, applyCalls := 0 }

/-! ## The asset cache -/

/-- The scan `for (auto& a : assets) if (a.first == id) return &a.second;`. -/
def findAsset : List (String × SPreloadedAsset) → String → Option SPreloadedAsset
  | [], _ => none
  | (k, a) :: rest, id => if k = id then some a else findAsset rest id

/-- The statements `ASSET = &assets[t.id]; ASSET->texture.m_vSize = t.size;`:
the entry for `id` is updated in place, or a fresh one is added. -/
def assetsSetSize : List (String × SPreloadedAsset) → String → Vector2D →
    List (String × SPreloadedAsset)
  | [], id, size => [(id, { texture := { m_vSize := size } })]
  | (k, a) :: rest, id, size =>
    if k = id then (k, { a with texture := { a.texture with m_vSize := size } }) :: rest
    else (k, a) :: assetsSetSize rest id size

/-- The keys of the cache. -/
def assetKeys (assets : List (String × SPreloadedAsset)) : List String :=
  assets.map Prod.fst

/-! ## `apply` -/

/-- One round of the loop body of `apply` on the cache. -/
def applyTarget (assets : List (String × SPreloadedAsset)) (t : SPreloadTarget) :
    List (String × SPreloadedAsset) :=
  if t.type = TARGET_IMAGE then assetsSetSize assets t.id t.size
  else assets

/-- The function `CAsyncResourceGatherer::apply`. -/
def apply (g : CAsyncResourceGatherer) : CAsyncResourceGatherer :=
  { g with
    assets := g.preloadTargets.foldl applyTarget g.assets,
    preloadTargets := [],
    applied := true,
    applyCalls := g.applyCalls + 1 }

/-! ## `getAssetByID` -/

/-- The function `CAsyncResourceGatherer::getAssetByID`: the asset pointed to
(`none` for `nullptr`) and the gatherer afterwards. -/
def getAssetByID (g : CAsyncResourceGatherer) (id : String) :
    Option SPreloadedAsset × CAsyncResourceGatherer :=
  if g.asyncLoopState.busy then (none, g)
  else
    match findAsset g.assets id with
    | some a => (some a, g)
    | none =>
      if !g.preloadTargets.isEmpty then
        let g' := apply g
        (findAsset g'.assets id, g')
      else (none, g)

/-! ## `gather` -/

/-- The loop body of `gather` for one widget descriptor. -/
def gatherWidget (imageSize : String → Vector2D)
    (targets : List SPreloadTarget) (c : SWidgetConfig) : Option (List SPreloadTarget) :=
  if c.type = "background" then
    match c.values.lookup "path" with
    | none => none
    | some v =>
      match anyCastCString v with
      | none => none
      | some path =>
        let id := "background:" ++ path
        some (targets ++ [{ size := imageSize path, type := TARGET_IMAGE, id := id }])
  else some targets

/-- The loop of `gather` over the descriptors. -/
def gatherLoop (imageSize : String → Vector2D) :
    List SWidgetConfig → List SPreloadTarget → Option (List SPreloadTarget)
  | [], targets => some targets
  | c :: rest, targets =>
    match gatherWidget imageSize targets c with
    | none => none
    | some targets' => gatherLoop imageSize rest targets'

/-- The function `CAsyncResourceGatherer::gather` on the descriptors `CWIDGETS`. -/
def gather (imageSize : String → Vector2D) (CWIDGETS : List SWidgetConfig)
    (g : CAsyncResourceGatherer) : Option CAsyncResourceGatherer :=
  match gatherLoop imageSize CWIDGETS g.preloadTargets with
  | none => none
  | some targets => some { g with preloadTargets := targets, ready := true }

/-! ## `renderText` -/

/-- The constant `PANGO_SCALE` of Pango. -/
def PANGO_SCALE : Int := 1024

/-- The read `rq.props.contains(k) ? std::any_cast<T>(rq.props.at(k)) : dflt`. -/
def propOr {α : Type} (props : PropBag) (k : String) (cast : AnyValue → Option α)
    (dflt : α) : Option α :=
  match props.lookup k with
  | none => some dflt
  | some v => cast v

/-- The value of a 32-bit `int` computation whose mathematical result is `n`:
two's complement wrap-around into the range from -2^31 to 2^31 - 1. -/
def wrapInt32 (n : Int) : Int :=
  (n + 2147483648) % 4294967296 - 2147483648

/-- The target built by `renderText` from the three properties read.  The size
handed to Pango, `FONTSIZE * PANGO_SCALE`, is a product of two `int`s and is
taken in 32 bits. -/
def textTargetOf (layoutSize : String → String → Int → Int × Int)
    (rq : SPreloadRequest) (FONTSIZE : Int) (FONTFAMILY : String) : SPreloadTarget :=
  let layout := layoutSize rq.asset FONTFAMILY (wrapInt32 (FONTSIZE * PANGO_SCALE))
  { type := TARGET_IMAGE, id := rq.id,
    size := { x := layout.1.tdiv PANGO_SCALE, y := layout.2.tdiv PANGO_SCALE } }

/-- The target pushed by `renderText`, if the property reads do not throw. -/
def textTarget (layoutSize : String → String → Int → Int × Int)
    (rq : SPreloadRequest) : Option SPreloadTarget :=
  match propOr rq.props "font_size" anyCastInt 16 with
  | none => none
  | some FONTSIZE =>
    match propOr rq.props "color" anyCastColor () with
    | none => none
    | some _ =>
      match propOr rq.props "font_family" anyCastString "Sans" with
      | none => none
      | some FONTFAMILY => some (textTargetOf layoutSize rq FONTSIZE FONTFAMILY)

/-- The function `CAsyncResourceGatherer::renderText`. -/
def renderText (layoutSize : String → String → Int → Int × Int)
    (g : CAsyncResourceGatherer) (rq : SPreloadRequest) : Option CAsyncResourceGatherer :=
  match textTarget layoutSize rq with
  | none => none
  | some target => some { g with preloadTargets := g.preloadTargets ++ [target] }

/-! ## The worker loop and the request entry point -/

/-- The function `CAsyncResourceGatherer::requestAsyncAssetPreload`. -/
def requestAsyncAssetPreload (g : CAsyncResourceGatherer) (request : SPreloadRequest) :
    CAsyncResourceGatherer :=
  { g with asyncLoopState :=
      { g.asyncLoopState with
        requests := g.asyncLoopState.requests ++ [request],
        pending := true } }

/-- Whether an iteration of `asyncAssetSpinLock` enters `loopGuard.wait_for`:
the test `asyncLoopState.pending == false`. -/
def entersWait (g : CAsyncResourceGatherer) : Bool :=
  g.asyncLoopState.pending == false

/-- The drain `auto requests = asyncLoopState.requests; asyncLoopState.requests.clear();`:
the local batch and the gatherer afterwards. -/
def drainRequests (g : CAsyncResourceGatherer) :
    List SPreloadRequest × CAsyncResourceGatherer :=
  (g.asyncLoopState.requests,
   { g with asyncLoopState := { g.asyncLoopState with requests := [] } })

/-- The loop body `if (r.type == TARGET_TEXT) renderText(r); else Debug::log(...)`. -/
def processRequest (layoutSize : String → String → Int → Int × Int)
    (g : CAsyncResourceGatherer) (r : SPreloadRequest) : Option CAsyncResourceGatherer :=
  if r.type = TARGET_TEXT then renderText layoutSize g r else some g

/-- The loop `for (auto& r : requests)` over the drained batch. -/
def processBatch (layoutSize : String → String → Int → Int × Int) :
    List SPreloadRequest → CAsyncResourceGatherer → Option CAsyncResourceGatherer
  | [], g => some g
  | r :: rest, g =>
    match processRequest layoutSize g r with
    | none => none
    | some g' => processBatch layoutSize rest g'

/-- One iteration of the `while` loop of `asyncAssetSpinLock`, from the end of
the wait to the end of the loop body. -/
def asyncAssetSpinLockIteration (layoutSize : String → String → Int → Int × Int)
    (g : CAsyncResourceGatherer) : Option CAsyncResourceGatherer :=
  if g.asyncLoopState.requests.isEmpty then some g
  else
    let (requests, g1) := drainRequests g
    let g2 := { g1 with asyncLoopState := { g1.asyncLoopState with busy := true } }
    match processBatch layoutSize requests g2 with
    | none => none
    | some g3 => some { g3 with asyncLoopState := { g3.asyncLoopState with busy := false } }

/-! ## Reference values the properties are stated against -/

/-- The `path` property of a widget descriptor, when it holds a C string. -/
def widgetPath (c : SWidgetConfig) : Option String :=
  match c.values.lookup "path" with
  | some (.cstring p) => some p
  | _ => none

/-- The target expected for a background image at `path`. -/
def backgroundTarget (imageSize : String → Vector2D) (path : String) : SPreloadTarget :=
  { type := TARGET_IMAGE, id := "background:" ++ path, size := imageSize path }

/-- One expected target per descriptor of type "background", in descriptor order. -/
def backgroundTargets (imageSize : String → Vector2D) (ws : List SWidgetConfig) :
    List SPreloadTarget :=
  (ws.filter (fun c => c.type = "background")).map
    (fun c => backgroundTarget imageSize ((widgetPath c).getD ""))

/-- The property under `k` is absent or holds an `int`. -/
def absentOrInt (props : PropBag) (k : String) : Bool :=
  match props.lookup k with
  | none => true
  | some (.int _) => true
  | some _ => false

/-- The property under `k` is absent or holds a `CColor`. -/
def absentOrColor (props : PropBag) (k : String) : Bool :=
  match props.lookup k with
  | none => true
  | some .color => true
  | some _ => false

/-- The property under `k` is absent or holds a `std::string`. -/
def absentOrString (props : PropBag) (k : String) : Bool :=
  match props.lookup k with
  | none => true
  | some (.string _) => true
  | some _ => false

/-- The three properties of a text request have their expected types when present:
`font_size` an `int`, `color` a `CColor`, `font_family` a `std::string`. -/
def wellTypedProps (props : PropBag) : Bool :=
  absentOrInt props "font_size" && absentOrColor props "color"
    && absentOrString props "font_family"

/-- The font size of a request: its `font_size`, 16 when absent. -/
def requestFontSize (rq : SPreloadRequest) : Int :=
  match rq.props.lookup "font_size" with
  | some (.int n) => n
  | _ => 16

/-- The font family of a request: its `font_family`, "Sans" when absent. -/
def requestFontFamily (rq : SPreloadRequest) : String :=
  match rq.props.lookup "font_family" with
  | some (.string f) => f
  | _ => "Sans"

/-- The extents measured in the first pass for a request: the Pango layout size
of its text in its font family and at its font size (in Pango units, the font
size times `PANGO_SCALE` as a mathematical product), converted to pixels by
`PANGO_SCALE`. -/
def measuredExtents (layoutSize : String → String → Int → Int × Int)
    (rq : SPreloadRequest) : Vector2D :=
  { x := (layoutSize rq.asset (requestFontFamily rq)
            (requestFontSize rq * PANGO_SCALE)).1.tdiv PANGO_SCALE,
    y := (layoutSize rq.asset (requestFontFamily rq)
            (requestFontSize rq * PANGO_SCALE)).2.tdiv PANGO_SCALE }

/-- The font size of a request times `PANGO_SCALE` fits in a 32-bit `int`. -/
def fontSizeFits (rq : SPreloadRequest) : Prop :=
  -2097152 ≤ requestFontSize rq ∧ requestFontSize rq < 2097152

instance fontSizeFitsDecidable (rq : SPreloadRequest) : Decidable (fontSizeFits rq) := by
  unfold fontSizeFits
  infer_instance

/-- The target `renderText` builds for a request whose properties are well typed. -/
def renderedTarget (layoutSize : String → String → Int → Int × Int)
    (rq : SPreloadRequest) : SPreloadTarget :=
  textTargetOf layoutSize rq (requestFontSize rq) (requestFontFamily rq)

/-- The targets `renderText` builds for the requests of kind `TARGET_TEXT` of a
batch, in request order. -/
def textTargets (layoutSize : String → String → Int → Int × Int)
    (rqs : List SPreloadRequest) : List SPreloadTarget :=
  (rqs.filter (fun r => r.type = TARGET_TEXT)).map (renderedTarget layoutSize)

/-- A text request with font size 2097152, whose product with `PANGO_SCALE` is 2^31. -/
def requestHuge : SPreloadRequest :=
  { type := TARGET_TEXT, asset := "x", id := "huge", props := [("font_size", .int 2097152)] }

/-- The gatherer after the gather pass over `sampleWidgets`, the submission of
`requestLocked` and one worker iteration: two queued targets, nothing cached. -/
def gatheredAndRendered : CAsyncResourceGatherer :=
  { initialGatherer with
    preloadTargets :=
      [{ type := TARGET_IMAGE, id := "background:/a.png", size := { x := 6, y := 8 } },
       { type := TARGET_IMAGE, id := "label", size := { x := 96, y := 16 } }],
    asyncLoopState := { requests := [], pending := true, busy := false },
    ready := true }

/-- The size of the dummy canvas `renderText` creates for measuring. -/
def dummyCanvas : Vector2D := { x := 1920, y := 1080 }

/-- A sample layout measurement for concrete evaluations: in Pango units, the
width is the font size times the number of characters, the height the font size. -/
def sampleLayout : String → String → Int → Int × Int :=
  fun text _ size => (size * text.length, size)

/-- A sample decoder for concrete evaluations: an image as wide as its path is
long, 8 pixels high. -/
def sampleImageSize : String → Vector2D :=
  fun path => { x := path.length, y := 8 }

/-- What one queued target does to the cache entry of `id`, seen from the
lookup of `id`. -/
def lookupStep (id : String) (acc : Option SPreloadedAsset) (t : SPreloadTarget) :
    Option SPreloadedAsset :=
  if t.type = TARGET_IMAGE ∧ t.id = id then some { texture := { m_vSize := t.size } }
  else acc

/-- The ids a gather pass over `ws` puts forward: "background:" + path for each
descriptor of type "background" that has a path. -/
def gatheredIds (ws : List SWidgetConfig) : List String :=
  (ws.filter (fun c => c.type = "background")).filterMap
    (fun c => (widgetPath c).map (fun p => "background:" ++ p))

/-- The states reachable from the initial gatherer by `gather`,
`requestAsyncAssetPreload`, worker-loop iterations, `apply` and `getAssetByID`,
together with the ids put forward so far by the gather passes and the requests. -/
inductive Reachable (imageSize : String → Vector2D)
    (layoutSize : String → String → Int → Int × Int) :
    List String → CAsyncResourceGatherer → Prop where
  | init : Reachable imageSize layoutSize [] initialGatherer
  | gatherStep (ids : List String) (g g' : CAsyncResourceGatherer) (ws : List SWidgetConfig) :
      Reachable imageSize layoutSize ids g → gather imageSize ws g = some g' →
      Reachable imageSize layoutSize (ids ++ gatheredIds ws) g'
  | requestStep (ids : List String) (g : CAsyncResourceGatherer) (rq : SPreloadRequest) :
      Reachable imageSize layoutSize ids g →
      Reachable imageSize layoutSize (ids ++ [rq.id]) (requestAsyncAssetPreload g rq)
  | workerStep (ids : List String) (g g' : CAsyncResourceGatherer) :
      Reachable imageSize layoutSize ids g →
      asyncAssetSpinLockIteration layoutSize g = some g' →
      Reachable imageSize layoutSize ids g'
  | applyStep (ids : List String) (g : CAsyncResourceGatherer) :
      Reachable imageSize layoutSize ids g → Reachable imageSize layoutSize ids (apply g)
  | getStep (ids : List String) (g : CAsyncResourceGatherer) (id : String) :
      Reachable imageSize layoutSize ids g →
      Reachable imageSize layoutSize ids (getAssetByID g id).2

/-- Every id held by the cache, the queue or the request buffer was put forward. -/
def AllSubmitted (ids : List String) (g : CAsyncResourceGatherer) : Prop :=
  (∀ k ∈ assetKeys g.assets, k ∈ ids)
  ∧ (∀ t ∈ g.preloadTargets, t.id ∈ ids)
  ∧ (∀ r ∈ g.asyncLoopState.requests, r.id ∈ ids)

/-! ## The two mutexes `requestMutex` and `cvmtx`

The lock operations of `requestAsyncAssetPreload` (lines 206-212) and of one
iteration of `asyncAssetSpinLock` (lines 173-203) as a step function on the
program points of a requester thread and of the worker thread.  A step of a
thread that has to block on a mutex held by the other thread is `none`. -/

/-- The two threads. -/
inductive Thread where
  | worker
  | requester
  deriving DecidableEq, Repr

/-- Program points of `requestAsyncAssetPreload`: before `lock_guard lg(requestMutex)`
(207), before `requests.push_back` (208), before `unique_lock lk(cvmtx)` (209),
before `pending = true; notify_all()` (210-211), before the destructors of `lk`
and `lg` at the closing brace (212). -/
inductive RequesterPoint where
  | lockRequestMutex
  | pushBack
  | lockCvmtx
  | setPending
  | leave
  deriving DecidableEq, Repr

/-- Program points of an iteration of `asyncAssetSpinLock`: before
`unique_lock lk(cvmtx)` (175), before the test of `pending` (176), inside
`wait_for` with `cvmtx` released (177), before `requestMutex.lock()` (179),
before the test `requests.empty()` (181), before the copy and `clear` (186-187),
before `requestMutex.unlock()` (189), before the batch (193-202), before the
destructor of `lk` at the end of the loop body or at `continue`. -/
inductive WorkerPoint where
  | lockCvmtx
  | testPending
  | waiting
  | lockRequestMutex
  | testEmpty
  | drain
  | unlockRequestMutex
  | process
  | endOfBody
  deriving DecidableEq, Repr

/-- Where both threads stand, who owns each mutex, the `pending` flag and the
number of buffered requests. -/
structure LockState where
  worker : WorkerPoint
  requester : RequesterPoint
  cvmtx : Option Thread
  requestMutex : Option Thread
  pending : Bool
  requests : Nat
  deriving DecidableEq, Repr

/-- Both threads at the start of their code, both mutexes free. -/
def initialLockState : LockState :=
  { worker := .lockCvmtx, requester := .lockRequestMutex,
    cvmtx := none, requestMutex := none, pending := false, requests := 0 }

/-- One step of a thread.  The requester thread calls
`requestAsyncAssetPreload` again after it has returned; the worker returns from
`wait_for` (notification or timeout) as soon as it can re-acquire `cvmtx`. -/
def lockStep (s : LockState) : Thread → Option LockState
  | .requester =>
    match s.requester with
    | .lockRequestMutex =>
      if s.requestMutex = none then
        some { s with requestMutex := some .requester, requester := .pushBack }
      else none
    | .pushBack => some { s with requests := s.requests + 1, requester := .lockCvmtx }
    | .lockCvmtx =>
      if s.cvmtx = none then
        some { s with cvmtx := some .requester, requester := .setPending }
      else none
    | .setPending => some { s with pending := true, requester := .leave }
    | .leave =>
      some { s with cvmtx := none, requestMutex := none, requester := .lockRequestMutex }
  | .worker =>
    match s.worker with
    | .lockCvmtx =>
      if s.cvmtx = none then some { s with cvmtx := some .worker, worker := .testPending }
      else none
    | .testPending =>
      if s.pending = false then some { s with cvmtx := none, worker := .waiting }
      else some { s with worker := .lockRequestMutex }
    | .waiting =>
      if s.cvmtx = none then
        some { s with cvmtx := some .worker, worker := .lockRequestMutex }
      else none
    | .lockRequestMutex =>
      if s.requestMutex = none then
        some { s with requestMutex := some .worker, worker := .testEmpty }
      else none
    | .testEmpty =>
      if s.requests = 0 then some { s with requestMutex := none, worker := .endOfBody }
      else some { s with worker := .drain }
    | .drain => some { s with requests := 0, worker := .unlockRequestMutex }
    | .unlockRequestMutex => some { s with requestMutex := none, worker := .process }
    | .process => some { s with worker := .endOfBody }
    | .endOfBody => some { s with cvmtx := none, worker := .lockCvmtx }

/-- The state after the threads have stepped in the order given by the schedule. -/
def runSchedule : List Thread → LockState → Option LockState
  | [], s => some s
  | t :: rest, s =>
    match lockStep s t with
    | none => none
    | some s' => runSchedule rest s'

/-- A first call of `requestAsyncAssetPreload` runs to its end; the worker then
starts an iteration and, `pending` being set, goes on to `requestMutex.lock()`
while a second call has taken `requestMutex` and pushed its request. -/
def deadlockSchedule : List Thread :=
  [.requester, .requester, .requester, .requester, .requester,
   .worker, .requester, .worker, .requester]

/-- A text request with no properties. -/
def requestLocked : SPreloadRequest :=
  { type := TARGET_TEXT, asset := "Locked", id := "label", props := [] }

/-- A later text request with the same id and another text and font size. -/
def requestUnlocked : SPreloadRequest :=
  { type := TARGET_TEXT, asset := "Unlocked!", id := "label",
    props := [("font_size", .int 24)] }

/-- A text request whose `font_size` holds a string. -/
def requestIllTyped : SPreloadRequest :=
  { type := TARGET_TEXT, asset := "x", id := "clock", props := [("font_size", .string "big")] }

/-- A request of kind `TARGET_IMAGE`, which the worker loop does not support. -/
def requestImage : SPreloadRequest :=
  { type := TARGET_IMAGE, asset := "/b.png", id := "picture", props := [] }

/-- A gatherer with one cached asset and two queued targets. -/
def sampleGatherer : CAsyncResourceGatherer :=
  { initialGatherer with
    assets := [("background:/a.png", { texture := { m_vSize := { x := 6, y := 8 } } })],
    preloadTargets :=
      [{ type := TARGET_IMAGE, id := "label", size := { x := 96, y := 16 } },
       { type := TARGET_TEXT, id := "odd", size := { x := 1, y := 1 } }] }

/-- The gatherer after `requestLocked` and `requestImage` have been submitted
and drained: one target, for the text request. -/
def afterLockedBatch : CAsyncResourceGatherer :=
  { initialGatherer with
    preloadTargets := [{ type := TARGET_IMAGE, id := "label", size := { x := 96, y := 16 } }],
    asyncLoopState := { requests := [], pending := true, busy := false } }

/-- Two queued image targets with the same id and different sizes. -/
def duplicateQueue : CAsyncResourceGatherer :=
  { initialGatherer with
    preloadTargets :=
      [{ type := TARGET_IMAGE, id := "a", size := { x := 1, y := 1 } },
       { type := TARGET_IMAGE, id := "a", size := { x := 2, y := 2 } }] }

/-- A background descriptor with a path, and a descriptor of another type. -/
def sampleWidgets : List SWidgetConfig :=
  [{ type := "background", values := [("path", .cstring "/a.png")] },
   { type := "label", values := [("text", .cstring "hi")] }]

/-! ## Lemmas on the asset cache -/

theorem findAsset_isSome_iff (c : List (String × SPreloadedAsset)) (id : String) :
    (findAsset c id).isSome = true ↔ id ∈ assetKeys c := by
  induction c with
  | nil => simp [findAsset, assetKeys]
  | cons e rest ih =>
    obtain ⟨k, a⟩ := e
    by_cases h : k = id
    · simp [findAsset, assetKeys, h]
    · have h' : ¬ id = k := fun e => h e.symm
      simp only [findAsset, if_neg h, ih]
      simp [assetKeys, h']

theorem findAsset_eq_none_iff (c : List (String × SPreloadedAsset)) (id : String) :
    findAsset c id = none ↔ id ∉ assetKeys c := by
  rw [← findAsset_isSome_iff]
  cases findAsset c id <;> simp

theorem findAsset_setSize_same (c : List (String × SPreloadedAsset)) (id : String)
    (sz : Vector2D) :
    findAsset (assetsSetSize c id sz) id = some { texture := { m_vSize := sz } } := by
  induction c with
  | nil => simp [assetsSetSize, findAsset]
  | cons e rest ih =>
    obtain ⟨k, a⟩ := e
    by_cases h : k = id
    · simp [assetsSetSize, findAsset, h]
    · simp [assetsSetSize, findAsset, h, ih]

theorem findAsset_setSize_other (c : List (String × SPreloadedAsset)) (id id' : String)
    (sz : Vector2D) (hne : id' ≠ id) :
    findAsset (assetsSetSize c id sz) id' = findAsset c id' := by
  induction c with
  | nil =>
    have h : ¬ id = id' := fun e => hne e.symm
    simp [assetsSetSize, findAsset, h]
  | cons e rest ih =>
    obtain ⟨k, a⟩ := e
    by_cases h : k = id
    · have h' : ¬ id = id' := fun e => hne e.symm
      simp [assetsSetSize, findAsset, h, h']
    · by_cases h2 : k = id'
      · subst h2
        simp [assetsSetSize, findAsset, h]
      · simp [assetsSetSize, findAsset, h, h2, ih]

theorem mem_assetKeys_setSize (c : List (String × SPreloadedAsset)) (id id' : String)
    (sz : Vector2D) :
    id' ∈ assetKeys (assetsSetSize c id sz) ↔ id' = id ∨ id' ∈ assetKeys c := by
  induction c with
  | nil => simp [assetsSetSize, assetKeys]
  | cons e rest ih =>
    obtain ⟨k, a⟩ := e
    by_cases h : k = id
    · subst h
      simp [assetsSetSize, assetKeys]
    · have ih' := ih
      simp only [assetKeys] at ih'
      simp only [assetsSetSize, if_neg h, assetKeys, List.map_cons, List.mem_cons, ih']
      tauto

theorem nodup_assetKeys_setSize (c : List (String × SPreloadedAsset)) (id : String)
    (sz : Vector2D) (hc : (assetKeys c).Nodup) :
    (assetKeys (assetsSetSize c id sz)).Nodup := by
  induction c with
  | nil => simp [assetsSetSize, assetKeys]
  | cons e rest ih =>
    obtain ⟨k, a⟩ := e
    have hc' : k ∉ assetKeys rest ∧ (assetKeys rest).Nodup := by
      simpa [assetKeys] using hc
    by_cases h : k = id
    · simpa [assetsSetSize, assetKeys, h] using hc
    · have hk : k ∉ assetKeys (assetsSetSize rest id sz) := by
        rw [mem_assetKeys_setSize]
        rintro (e | e)
        · exact h e
        · exact hc'.1 e
      have hn := ih hc'.2
      simp only [assetsSetSize, if_neg h]
      simp only [assetKeys, List.map_cons, List.nodup_cons]
      exact ⟨hk, hn⟩

/-! ## Lemmas on `apply` -/

theorem findAsset_applyTarget (c : List (String × SPreloadedAsset)) (t : SPreloadTarget)
    (id : String) :
    findAsset (applyTarget c t) id = lookupStep id (findAsset c id) t := by
  unfold applyTarget lookupStep
  by_cases ht : t.type = TARGET_IMAGE
  · by_cases hid : t.id = id
    · subst hid
      simp [ht, findAsset_setSize_same]
    · have hne : id ≠ t.id := fun e => hid e.symm
      simp [ht, hid, findAsset_setSize_other _ _ _ _ hne]
  · simp [ht]

theorem findAsset_foldl_applyTarget (q : List SPreloadTarget)
    (c : List (String × SPreloadedAsset)) (id : String) :
    findAsset (q.foldl applyTarget c) id = q.foldl (lookupStep id) (findAsset c id) := by
  induction q generalizing c with
  | nil => rfl
  | cons t rest ih =>
    simp only [List.foldl_cons]
    rw [ih, findAsset_applyTarget]

theorem foldl_lookupStep_of_no_image (q : List SPreloadTarget) (id : String)
    (acc : Option SPreloadedAsset)
    (h : ∀ t ∈ q, t.type = TARGET_IMAGE → t.id ≠ id) :
    q.foldl (lookupStep id) acc = acc := by
  induction q generalizing acc with
  | nil => rfl
  | cons t rest ih =>
    have ht : ¬ (t.type = TARGET_IMAGE ∧ t.id = id) := fun e =>
      h t (List.mem_cons_self _ _) e.1 e.2
    simp only [List.foldl_cons, lookupStep, if_neg ht]
    exact ih acc (fun u hu => h u (List.mem_cons_of_mem _ hu))

theorem foldl_lookupStep_last (pre post : List SPreloadTarget) (t : SPreloadTarget)
    (acc : Option SPreloadedAsset) (ht : t.type = TARGET_IMAGE)
    (h : ∀ u ∈ post, u.type = TARGET_IMAGE → u.id ≠ t.id) :
    (pre ++ t :: post).foldl (lookupStep t.id) acc
      = some { texture := { m_vSize := t.size } } := by
  rw [List.foldl_append, List.foldl_cons]
  have hs : lookupStep t.id (List.foldl (lookupStep t.id) acc pre) t
      = some { texture := { m_vSize := t.size } } := by
    simp [lookupStep, ht]
  rw [hs]
  exact foldl_lookupStep_of_no_image post t.id _ h

theorem foldl_lookupStep_isSome (q : List SPreloadTarget) (id : String)
    (acc : Option SPreloadedAsset) :
    (q.foldl (lookupStep id) acc).isSome = true ↔
      acc.isSome = true ∨ ∃ t ∈ q, t.type = TARGET_IMAGE ∧ t.id = id := by
  induction q generalizing acc with
  | nil => simp
  | cons t rest ih =>
    simp only [List.foldl_cons]
    rw [ih]
    by_cases ht : t.type = TARGET_IMAGE ∧ t.id = id
    · simp only [lookupStep, if_pos ht, Option.isSome_some, true_or, true_iff]
      exact Or.inr ⟨t, List.mem_cons_self _ _, ht⟩
    · simp only [lookupStep, if_neg ht, List.mem_cons]
      constructor
      · rintro (h | ⟨u, hu, hu'⟩)
        · exact Or.inl h
        · exact Or.inr ⟨u, Or.inr hu, hu'⟩
      · rintro (h | ⟨u, hu, hu'⟩)
        · exact Or.inl h
        · rcases hu with rfl | hu
          · exact absurd hu' ht
          · exact Or.inr ⟨u, hu, hu'⟩

theorem mem_assetKeys_foldl_applyTarget (q : List SPreloadTarget)
    (c : List (String × SPreloadedAsset)) (id : String) :
    id ∈ assetKeys (q.foldl applyTarget c) ↔
      id ∈ assetKeys c ∨ ∃ t ∈ q, t.type = TARGET_IMAGE ∧ t.id = id := by
  rw [← findAsset_isSome_iff, findAsset_foldl_applyTarget, foldl_lookupStep_isSome,
    findAsset_isSome_iff]

theorem nodup_assetKeys_foldl_applyTarget (q : List SPreloadTarget)
    (c : List (String × SPreloadedAsset)) (hc : (assetKeys c).Nodup) :
    (assetKeys (q.foldl applyTarget c)).Nodup := by
  induction q generalizing c with
  | nil => exact hc
  | cons t rest ih =>
    simp only [List.foldl_cons]
    apply ih
    unfold applyTarget
    by_cases ht : t.type = TARGET_IMAGE
    · simpa [ht] using nodup_assetKeys_setSize c t.id t.size hc
    · simpa [ht] using hc

theorem foldl_applyTarget_skip (pre post : List SPreloadTarget) (t : SPreloadTarget)
    (c : List (String × SPreloadedAsset)) (ht : t.type ≠ TARGET_IMAGE) :
    (pre ++ t :: post).foldl applyTarget c = (pre ++ post).foldl applyTarget c := by
  simp [List.foldl_append, applyTarget, ht]

/-! ## `getAssetByID` -/

/-- A lookup of an id that is neither cached nor carried by a queued image
target finds nothing. -/
theorem getAssetByID_none_of_absent (g : CAsyncResourceGatherer) (id : String)
    (hk : id ∉ assetKeys g.assets)
    (hq : ∀ t ∈ g.preloadTargets, t.type = TARGET_IMAGE → t.id ≠ id) :
    (getAssetByID g id).1 = none := by
  have hf : findAsset g.assets id = none := (findAsset_eq_none_iff _ _).2 hk
  have hf' : findAsset (apply g).assets id = none := by
    show findAsset (g.preloadTargets.foldl applyTarget g.assets) id = none
    rw [findAsset_foldl_applyTarget, foldl_lookupStep_of_no_image _ _ _ hq, hf]
  unfold getAssetByID
  by_cases hb : g.asyncLoopState.busy = true
  · simp [hb]
  · by_cases hempty : g.preloadTargets = []
    · simp [hb, hf, hempty]
    · simp [hb, hf, hempty, hf']

/-- C1: on a gatherer that is not busy, `getAssetByID(id)` returns an asset
exactly when `id` is a key of the asset cache or is carried by a queued target
of kind `TARGET_IMAGE`.  On a cache hit the gatherer is returned as it was (the
entry found is the cache's, `apply` is not run); on a miss with a non-empty
queue the result is the re-scan of the cache of `apply g`, and `apply` has run
once (the ghost counter grows by one); on a miss with an empty queue nothing
changes and the answer is "not found". -/
theorem getAssetByID_not_busy (g : CAsyncResourceGatherer) (id : String)
    (hbusy : g.asyncLoopState.busy = false) :
    ((getAssetByID g id).1.isSome = true ↔
        (id ∈ assetKeys g.assets ∨
          ∃ t ∈ g.preloadTargets, t.type = TARGET_IMAGE ∧ t.id = id))
    ∧ (id ∈ assetKeys g.assets → getAssetByID g id = (findAsset g.assets id, g))
    ∧ (id ∉ assetKeys g.assets → g.preloadTargets ≠ [] →
        getAssetByID g id = (findAsset (apply g).assets id, apply g)
        ∧ (getAssetByID g id).2.applyCalls = g.applyCalls + 1)
    ∧ (id ∉ assetKeys g.assets → g.preloadTargets = [] →
        getAssetByID g id = (none, g)) := by
  have hkeys := mem_assetKeys_foldl_applyTarget g.preloadTargets g.assets id
  cases hf : findAsset g.assets id with
  | some a =>
    have hin : id ∈ assetKeys g.assets := by
      rw [← findAsset_isSome_iff, hf]; rfl
    have hget : getAssetByID g id = (some a, g) := by
      simp [getAssetByID, hbusy, hf]
    refine ⟨?_, ?_, ?_, ?_⟩
    · rw [hget]
      simp [hin]
    · intro _
      rw [hget]
    · intro hn
      exact absurd hin hn
    · intro hn
      exact absurd hin hn
  | none =>
    have hnot : id ∉ assetKeys g.assets := (findAsset_eq_none_iff _ _).1 hf
    by_cases hq : g.preloadTargets = []
    · have hget : getAssetByID g id = (none, g) := by
        simp [getAssetByID, hbusy, hf, hq]
      refine ⟨?_, ?_, ?_, ?_⟩
      · rw [hget]
        simp [hnot, hq]
      · intro hin
        exact absurd hin hnot
      · intro _ hne
        exact absurd hq hne
      · intro _ _
        exact hget
    · have hget : getAssetByID g id = (findAsset (apply g).assets id, apply g) := by
        simp [getAssetByID, hbusy, hf, hq]
      refine ⟨?_, ?_, ?_, ?_⟩
      · rw [hget]
        show (findAsset (g.preloadTargets.foldl applyTarget g.assets) id).isSome = true ↔ _
        rw [findAsset_isSome_iff]
        exact hkeys
      · intro hin
        exact absurd hin hnot
      · intro _ _
        refine ⟨hget, ?_⟩
        rw [hget]
        rfl
      · intro _ he
        exact absurd he hq

/-- C2: on a busy gatherer `getAssetByID(id)` answers "not found" for every
`id` and returns the gatherer as it was: cache, queue and the count of `apply`
runs are untouched, whatever the cache and the queue hold. -/
theorem getAssetByID_busy (g : CAsyncResourceGatherer) (id : String)
    (hbusy : g.asyncLoopState.busy = true) :
    getAssetByID g id = (none, g) := by
  unfold getAssetByID
  rw [if_pos hbusy]

/-! ## `apply` -/

/-- C4: two targets `t1`, `t2` of kind `TARGET_IMAGE` with the same id, `t2`
being the last one applied with that id.  Whether both sit in one queue (`t1`
before `t2`) or are applied by two successive `apply` calls, the cache (whose
keys are distinct, as in any `unordered_map`) afterwards has exactly one entry
for the id, and its dimensions are those of `t2`. -/
theorem apply_same_id_twice (g : CAsyncResourceGatherer) (t1 t2 : SPreloadTarget)
    (a b c d : List SPreloadTarget)
    (hc : (assetKeys g.assets).Nodup)
    (_h1 : t1.type = TARGET_IMAGE) (h2 : t2.type = TARGET_IMAGE) (hid : t1.id = t2.id)
    (hlast : ∀ u ∈ c, u.type = TARGET_IMAGE → u.id ≠ t2.id) :
    ((assetKeys (apply { g with preloadTargets := a ++ t1 :: (b ++ t2 :: c) }).assets).count
        t1.id = 1
      ∧ findAsset (apply { g with preloadTargets := a ++ t1 :: (b ++ t2 :: c) }).assets t1.id
          = some { texture := { m_vSize := t2.size } })
    ∧ ((assetKeys (apply { apply { g with preloadTargets := a ++ t1 :: b } with
          preloadTargets := d ++ t2 :: c }).assets).count t1.id = 1
      ∧ findAsset (apply { apply { g with preloadTargets := a ++ t1 :: b } with
          preloadTargets := d ++ t2 :: c }).assets t1.id
          = some { texture := { m_vSize := t2.size } }) := by
  have hone : ∀ (c0 : List (String × SPreloadedAsset)) (q : List SPreloadTarget),
      (assetKeys c0).Nodup →
      findAsset (q.foldl applyTarget c0) t1.id = some { texture := { m_vSize := t2.size } } →
      (assetKeys (q.foldl applyTarget c0)).count t1.id = 1 := by
    intro c0 q hc0 hf
    apply List.count_eq_one_of_mem (nodup_assetKeys_foldl_applyTarget q c0 hc0)
    rw [← findAsset_isSome_iff, hf]
    rfl
  have hA : findAsset ((a ++ t1 :: (b ++ t2 :: c)).foldl applyTarget g.assets) t1.id
      = some { texture := { m_vSize := t2.size } } := by
    rw [findAsset_foldl_applyTarget, hid]
    have e : a ++ t1 :: (b ++ t2 :: c) = (a ++ t1 :: b) ++ t2 :: c := by simp
    rw [e]
    exact foldl_lookupStep_last _ _ _ _ h2 hlast
  have hB : findAsset ((d ++ t2 :: c).foldl applyTarget
      ((a ++ t1 :: b).foldl applyTarget g.assets)) t1.id
      = some { texture := { m_vSize := t2.size } } := by
    rw [findAsset_foldl_applyTarget, hid]
    exact foldl_lookupStep_last _ _ _ _ h2 hlast
  refine ⟨⟨hone _ _ hc hA, hA⟩, ⟨hone _ _ ?_ hB, hB⟩⟩
  exact nodup_assetKeys_foldl_applyTarget _ _ hc

/-- C5 (as amended): after `apply` the queue is empty; the keys of the cache
are the previous keys together with the ids of the queued targets of kind
`TARGET_IMAGE`; a queued target of that kind which is the last such target
with its id yields the cache entry of its id, with its dimensions; a target of
another kind changes nothing and the targets after it are processed as if it
were absent; an entry whose id is carried by no queued `TARGET_IMAGE` target is
unchanged. -/
theorem apply_queue (g : CAsyncResourceGatherer) :
    (apply g).preloadTargets = []
    ∧ (∀ id, id ∈ assetKeys (apply g).assets ↔
        (id ∈ assetKeys g.assets ∨
          ∃ t ∈ g.preloadTargets, t.type = TARGET_IMAGE ∧ t.id = id))
    ∧ (∀ pre t post, g.preloadTargets = pre ++ t :: post → t.type = TARGET_IMAGE →
        (∀ u ∈ post, u.type = TARGET_IMAGE → u.id ≠ t.id) →
        findAsset (apply g).assets t.id = some { texture := { m_vSize := t.size } })
    ∧ (∀ pre t post, g.preloadTargets = pre ++ t :: post → t.type ≠ TARGET_IMAGE →
        (apply g).assets = (apply { g with preloadTargets := pre ++ post }).assets)
    ∧ (∀ id, (∀ t ∈ g.preloadTargets, t.type = TARGET_IMAGE → t.id ≠ id) →
        findAsset (apply g).assets id = findAsset g.assets id) := by
  refine ⟨rfl, ?_, ?_, ?_, ?_⟩
  · intro id
    exact mem_assetKeys_foldl_applyTarget g.preloadTargets g.assets id
  · intro pre t post hq ht hpost
    show findAsset (g.preloadTargets.foldl applyTarget g.assets) t.id = _
    rw [findAsset_foldl_applyTarget, hq]
    exact foldl_lookupStep_last pre post t _ ht hpost
  · intro pre t post hq ht
    show g.preloadTargets.foldl applyTarget g.assets = (pre ++ post).foldl applyTarget g.assets
    rw [hq]
    exact foldl_applyTarget_skip pre post t g.assets ht
  · intro id hno
    show findAsset (g.preloadTargets.foldl applyTarget g.assets) id = _
    rw [findAsset_foldl_applyTarget]
    exact foldl_lookupStep_of_no_image _ _ _ hno

/-! ## Lemmas on `gather` -/

theorem gatherWidget_of_path (imageSize : String → Vector2D) (targets : List SPreloadTarget)
    (c : SWidgetConfig) (h : c.type = "background" → (widgetPath c).isSome = true) :
    gatherWidget imageSize targets c = some (targets ++ backgroundTargets imageSize [c]) := by
  by_cases hb : c.type = "background"
  · have hp := h hb
    unfold widgetPath at hp
    unfold gatherWidget backgroundTargets widgetPath
    cases hl : List.lookup "path" c.values with
    | none => simp [hl] at hp
    | some v =>
      cases v <;> simp [hl] at hp
      simp [hb, anyCastCString, backgroundTarget, hl]
  · simp [gatherWidget, backgroundTargets, hb]

theorem backgroundTargets_cons (imageSize : String → Vector2D) (c : SWidgetConfig)
    (ws : List SWidgetConfig) :
    backgroundTargets imageSize (c :: ws)
      = backgroundTargets imageSize [c] ++ backgroundTargets imageSize ws := by
  unfold backgroundTargets
  by_cases hb : c.type = "background" <;> simp [List.filter_cons, hb]

theorem gatherLoop_of_paths (imageSize : String → Vector2D) (ws : List SWidgetConfig)
    (targets : List SPreloadTarget)
    (h : ∀ c ∈ ws, c.type = "background" → (widgetPath c).isSome = true) :
    gatherLoop imageSize ws targets = some (targets ++ backgroundTargets imageSize ws) := by
  induction ws generalizing targets with
  | nil => simp [gatherLoop, backgroundTargets]
  | cons c rest ih =>
    have hc := gatherWidget_of_path imageSize targets c (h c (List.mem_cons_self _ _))
    have hr := ih (targets ++ backgroundTargets imageSize [c])
      (fun d hd => h d (List.mem_cons_of_mem _ hd))
    simp only [gatherLoop, hc, hr, backgroundTargets_cons imageSize c rest, List.append_assoc]

/-- C6 (as amended): when every descriptor of type "background" carries a
`path` property holding a string, the gather pass on an empty queue succeeds
and leaves in the queue exactly one target per descriptor of type "background",
in descriptor order, of kind `TARGET_IMAGE`, with id "background:" + path and
the size reported for the decoded image; descriptors of other types contribute
nothing; `ready` is true afterwards and nothing else changes. -/
theorem gather_background_targets (imageSize : String → Vector2D)
    (ws : List SWidgetConfig) (g : CAsyncResourceGatherer)
    (hq : g.preloadTargets = [])
    (hpath : ∀ c ∈ ws, c.type = "background" → (widgetPath c).isSome = true) :
    gather imageSize ws g
        = some { g with preloadTargets := backgroundTargets imageSize ws, ready := true }
    ∧ (backgroundTargets imageSize ws).length
        = (ws.filter (fun c => c.type = "background")).length
    ∧ (∀ t ∈ backgroundTargets imageSize ws, t.type = TARGET_IMAGE)
    ∧ (backgroundTargets imageSize ws).map (fun t => t.id)
        = (ws.filter (fun c => c.type = "background")).map
            (fun c => "background:" ++ (widgetPath c).getD "")
    ∧ (backgroundTargets imageSize ws).map (fun t => t.size)
        = (ws.filter (fun c => c.type = "background")).map
            (fun c => imageSize ((widgetPath c).getD "")) := by
  refine ⟨?_, ?_, ?_, ?_, ?_⟩
  · unfold gather
    rw [gatherLoop_of_paths imageSize ws g.preloadTargets hpath, hq]
    rfl
  · simp [backgroundTargets]
  · intro t ht
    simp only [backgroundTargets, List.mem_map] at ht
    obtain ⟨c, _, rfl⟩ := ht
    rfl
  · simp [backgroundTargets, backgroundTarget, Function.comp_def]
  · simp [backgroundTargets, backgroundTarget, Function.comp_def]

/-! ## Lemmas on `renderText` and the worker loop -/

theorem textTarget_of_wellTyped (layoutSize : String → String → Int → Int × Int)
    (rq : SPreloadRequest) (h : wellTypedProps rq.props = true) :
    textTarget layoutSize rq = some (renderedTarget layoutSize rq) := by
  simp only [wellTypedProps, Bool.and_eq_true] at h
  obtain ⟨⟨hs, hcol⟩, hf⟩ := h
  unfold absentOrInt at hs
  unfold absentOrColor at hcol
  unfold absentOrString at hf
  unfold textTarget propOr renderedTarget requestFontSize requestFontFamily
  cases h1 : List.lookup "font_size" rq.props with
  | none =>
    cases h2 : List.lookup "color" rq.props with
    | none =>
      cases h3 : List.lookup "font_family" rq.props with
      | none => simp
      | some v3 =>
        cases v3 <;> simp [h3] at hf
        simp [anyCastString]
    | some v2 =>
      cases v2 <;> simp [h2] at hcol
      cases h3 : List.lookup "font_family" rq.props with
      | none => simp [anyCastColor]
      | some v3 =>
        cases v3 <;> simp [h3] at hf
        simp [anyCastString, anyCastColor]
  | some v1 =>
    cases v1 <;> simp [h1] at hs
    cases h2 : List.lookup "color" rq.props with
    | none =>
      cases h3 : List.lookup "font_family" rq.props with
      | none => simp [anyCastInt]
      | some v3 =>
        cases v3 <;> simp [h3] at hf
        simp [anyCastString, anyCastInt]
    | some v2 =>
      cases v2 <;> simp [h2] at hcol
      cases h3 : List.lookup "font_family" rq.props with
      | none => simp [anyCastColor, anyCastInt]
      | some v3 =>
        cases v3 <;> simp [h3] at hf
        simp [anyCastString, anyCastColor, anyCastInt]

theorem wellTyped_of_textTarget (layoutSize : String → String → Int → Int × Int)
    (rq : SPreloadRequest) (t : SPreloadTarget) (h : textTarget layoutSize rq = some t) :
    wellTypedProps rq.props = true := by
  unfold textTarget propOr at h
  unfold wellTypedProps absentOrInt absentOrColor absentOrString
  cases h1 : List.lookup "font_size" rq.props with
  | none =>
    cases h2 : List.lookup "color" rq.props with
    | none =>
      cases h3 : List.lookup "font_family" rq.props with
      | none => simp
      | some v3 => cases v3 <;> simp [h1, h2, h3, anyCastString] at h ⊢
    | some v2 =>
      cases v2 <;> simp [h1, h2, anyCastColor] at h ⊢
      cases h3 : List.lookup "font_family" rq.props with
      | none => simp
      | some v3 => cases v3 <;> simp [h3, anyCastString] at h ⊢
  | some v1 =>
    cases v1 <;> simp [h1, anyCastInt] at h ⊢
    cases h2 : List.lookup "color" rq.props with
    | none =>
      cases h3 : List.lookup "font_family" rq.props with
      | none => simp
      | some v3 => cases v3 <;> simp [h2, h3, anyCastString] at h ⊢
    | some v2 =>
      cases v2 <;> simp [h2, anyCastColor] at h ⊢
      cases h3 : List.lookup "font_family" rq.props with
      | none => simp
      | some v3 => cases v3 <;> simp [h3, anyCastString] at h ⊢

theorem textTarget_eq_rendered (layoutSize : String → String → Int → Int × Int)
    (rq : SPreloadRequest) (t : SPreloadTarget) (h : textTarget layoutSize rq = some t) :
    t = renderedTarget layoutSize rq := by
  have hw := wellTyped_of_textTarget layoutSize rq t h
  rw [textTarget_of_wellTyped layoutSize rq hw] at h
  exact (Option.some.inj h).symm

theorem wrapInt32_of_fits (n : Int) (h : -2147483648 ≤ n ∧ n < 2147483648) :
    wrapInt32 n = n := by
  unfold wrapInt32
  omega

/-- When the font size times `PANGO_SCALE` fits in an `int`, the target built by
`renderText` has the measured extents. -/
theorem renderedTarget_size_of_fits (layoutSize : String → String → Int → Int × Int)
    (rq : SPreloadRequest) (h : fontSizeFits rq) :
    (renderedTarget layoutSize rq).size = measuredExtents layoutSize rq := by
  have hw : wrapInt32 (requestFontSize rq * PANGO_SCALE) = requestFontSize rq * PANGO_SCALE := by
    apply wrapInt32_of_fits
    unfold fontSizeFits at h
    unfold PANGO_SCALE
    omega
  simp only [renderedTarget, textTargetOf, measuredExtents, hw]

theorem renderedTarget_id (layoutSize : String → String → Int → Int × Int)
    (rq : SPreloadRequest) :
    (renderedTarget layoutSize rq).id = rq.id ∧ (renderedTarget layoutSize rq).type = TARGET_IMAGE :=
  ⟨rfl, rfl⟩

theorem textTargets_cons_text (layoutSize : String → String → Int → Int × Int)
    (r : SPreloadRequest) (rs : List SPreloadRequest) (h : r.type = TARGET_TEXT) :
    textTargets layoutSize (r :: rs)
      = renderedTarget layoutSize r :: textTargets layoutSize rs := by
  simp [textTargets, List.filter_cons, h]

theorem textTargets_cons_other (layoutSize : String → String → Int → Int × Int)
    (r : SPreloadRequest) (rs : List SPreloadRequest) (h : r.type ≠ TARGET_TEXT) :
    textTargets layoutSize (r :: rs) = textTargets layoutSize rs := by
  simp [textTargets, List.filter_cons, h]

theorem textTargets_append (layoutSize : String → String → Int → Int × Int)
    (rs rs' : List SPreloadRequest) :
    textTargets layoutSize (rs ++ rs')
      = textTargets layoutSize rs ++ textTargets layoutSize rs' := by
  simp [textTargets]

theorem mem_textTargets (layoutSize : String → String → Int → Int × Int)
    (rs : List SPreloadRequest) (t : SPreloadTarget) (h : t ∈ textTargets layoutSize rs) :
    t.type = TARGET_IMAGE ∧ ∃ r ∈ rs, r.type = TARGET_TEXT ∧ t.id = r.id := by
  simp only [textTargets, List.mem_map, List.mem_filter, decide_eq_true_eq] at h
  obtain ⟨r, ⟨hr, ht⟩, rfl⟩ := h
  exact ⟨rfl, r, hr, ht, rfl⟩

/-- A batch that is processed to the end appends the expected targets and
touches nothing else. -/
theorem processBatch_some (layoutSize : String → String → Int → Int × Int)
    (rs : List SPreloadRequest) (g g' : CAsyncResourceGatherer)
    (h : processBatch layoutSize rs g = some g') :
    g' = { g with preloadTargets := g.preloadTargets ++ textTargets layoutSize rs } := by
  induction rs generalizing g with
  | nil =>
    simp only [processBatch, Option.some.injEq] at h
    subst h
    simp [textTargets]
  | cons r rest ih =>
    unfold processBatch at h
    by_cases hr : r.type = TARGET_TEXT
    · simp only [processRequest, if_pos hr, renderText] at h
      cases ht : textTarget layoutSize r with
      | none => simp [ht] at h
      | some t =>
        simp only [ht] at h
        have e := textTarget_eq_rendered layoutSize r t ht
        subst e
        have := ih _ h
        rw [this, textTargets_cons_text layoutSize r rest hr]
        simp
    · simp only [processRequest, if_neg hr] at h
      rw [ih _ h, textTargets_cons_other layoutSize r rest hr]

/-- A batch whose text requests are well typed is processed to the end. -/
theorem processBatch_of_wellTyped (layoutSize : String → String → Int → Int × Int)
    (rs : List SPreloadRequest) (g : CAsyncResourceGatherer)
    (h : ∀ r ∈ rs, r.type = TARGET_TEXT → wellTypedProps r.props = true) :
    processBatch layoutSize rs g
      = some { g with preloadTargets := g.preloadTargets ++ textTargets layoutSize rs } := by
  induction rs generalizing g with
  | nil => simp [processBatch, textTargets]
  | cons r rest ih =>
    have hrest := fun (g0 : CAsyncResourceGatherer) =>
      ih g0 (fun u hu => h u (List.mem_cons_of_mem _ hu))
    unfold processBatch
    by_cases hr : r.type = TARGET_TEXT
    · have ht := textTarget_of_wellTyped layoutSize r (h r (List.mem_cons_self _ _) hr)
      simp only [processRequest, if_pos hr, renderText, ht, hrest,
        textTargets_cons_text layoutSize r rest hr]
      simp
    · simp only [processRequest, if_neg hr, hrest, textTargets_cons_other layoutSize r rest hr]

/-- An iteration that finds the buffer empty changes nothing. -/
theorem iteration_of_empty (layoutSize : String → String → Int → Int × Int)
    (g : CAsyncResourceGatherer) (h : g.asyncLoopState.requests = []) :
    asyncAssetSpinLockIteration layoutSize g = some g := by
  simp [asyncAssetSpinLockIteration, h]

/-- An iteration that completes on a non-empty buffer: the buffer is empty,
`busy` is cleared, `pending` is what it was, the expected targets are queued. -/
theorem iteration_some (layoutSize : String → String → Int → Int × Int)
    (g g' : CAsyncResourceGatherer) (hne : g.asyncLoopState.requests ≠ [])
    (h : asyncAssetSpinLockIteration layoutSize g = some g') :
    g' = { g with
            preloadTargets :=
              g.preloadTargets ++ textTargets layoutSize g.asyncLoopState.requests,
            asyncLoopState :=
              { requests := [], pending := g.asyncLoopState.pending, busy := false } } := by
  unfold asyncAssetSpinLockIteration drainRequests at h
  simp only [List.isEmpty_iff, if_neg hne] at h
  cases hp : processBatch layoutSize g.asyncLoopState.requests
      { g with asyncLoopState :=
          { requests := [], pending := g.asyncLoopState.pending, busy := true } } with
  | none => simp [hp] at h
  | some g3 =>
    simp only [hp, Option.some.injEq] at h
    rw [← h, processBatch_some layoutSize _ _ _ hp]

/-- An iteration on a buffer whose text requests are well typed completes. -/
theorem iteration_of_wellTyped (layoutSize : String → String → Int → Int × Int)
    (g : CAsyncResourceGatherer) (hne : g.asyncLoopState.requests ≠ [])
    (h : ∀ r ∈ g.asyncLoopState.requests, r.type = TARGET_TEXT →
      wellTypedProps r.props = true) :
    asyncAssetSpinLockIteration layoutSize g
      = some { g with
            preloadTargets :=
              g.preloadTargets ++ textTargets layoutSize g.asyncLoopState.requests,
            asyncLoopState :=
              { requests := [], pending := g.asyncLoopState.pending, busy := false } } := by
  unfold asyncAssetSpinLockIteration drainRequests
  simp only [List.isEmpty_iff, if_neg hne]
  rw [processBatch_of_wellTyped layoutSize _ _ h]

theorem foldl_request_requests (rqs : List SPreloadRequest) (g : CAsyncResourceGatherer) :
    (rqs.foldl requestAsyncAssetPreload g).asyncLoopState.requests
      = g.asyncLoopState.requests ++ rqs := by
  induction rqs generalizing g with
  | nil => simp
  | cons r rest ih => simp [List.foldl_cons, ih, requestAsyncAssetPreload]

theorem foldl_request_frame (rqs : List SPreloadRequest) (g : CAsyncResourceGatherer) :
    (rqs.foldl requestAsyncAssetPreload g).preloadTargets = g.preloadTargets
    ∧ (rqs.foldl requestAsyncAssetPreload g).assets = g.assets
    ∧ (rqs.foldl requestAsyncAssetPreload g).asyncLoopState.busy = g.asyncLoopState.busy := by
  induction rqs generalizing g with
  | nil => simp
  | cons r rest ih =>
    simp only [List.foldl_cons]
    have := ih (requestAsyncAssetPreload g r)
    simpa [requestAsyncAssetPreload] using this

/-! ## The worker loop: statements -/

/-- C7 (as amended): a text request `rq`, whose font size times `PANGO_SCALE`
fits in an `int`, is submitted, possibly followed by later submissions none of
which is a text request with the same id; the worker iteration drains and
renders the batch, which gives the gatherer `g1`.  Let `g2` be a gatherer that
is not busy, whose queue is that of `g1` followed by targets none of which is
an image target with the id of `rq`, and whose cache has no entry for that id,
so that the lookup triggers `apply`.  Then the lookup of `rq.id` runs `apply`
and returns an asset with exactly the extents measured for `rq` (its text, font
family and font size, converted by `PANGO_SCALE`); it differs from the
1920x1080 dummy canvas whenever the measured extents do. -/
theorem text_asset_has_measured_extents
    (layoutSize : String → String → Int → Int × Int)
    (g0 g1 g2 : CAsyncResourceGatherer) (rq : SPreloadRequest)
    (later : List SPreloadRequest) (post : List SPreloadTarget)
    (htext : rq.type = TARGET_TEXT)
    (hfit : fontSizeFits rq)
    (hiter : asyncAssetSpinLockIteration layoutSize
      (later.foldl requestAsyncAssetPreload (requestAsyncAssetPreload g0 rq)) = some g1)
    (hlater : ∀ r ∈ later, r.type = TARGET_TEXT → r.id ≠ rq.id)
    (hbusy : g2.asyncLoopState.busy = false)
    (hqueue : g2.preloadTargets = g1.preloadTargets ++ post)
    (hpost : ∀ u ∈ post, u.type = TARGET_IMAGE → u.id ≠ rq.id)
    (hmiss : findAsset g2.assets rq.id = none) :
    getAssetByID g2 rq.id
        = (some { texture := { m_vSize := measuredExtents layoutSize rq } }, apply g2)
    ∧ (measuredExtents layoutSize rq ≠ dummyCanvas →
        ∀ a, (getAssetByID g2 rq.id).1 = some a → a.texture.m_vSize ≠ dummyCanvas) := by
  have hreq : (later.foldl requestAsyncAssetPreload
      (requestAsyncAssetPreload g0 rq)).asyncLoopState.requests
      = g0.asyncLoopState.requests ++ rq :: later := by
    rw [foldl_request_requests]
    simp [requestAsyncAssetPreload]
  have hne : (later.foldl requestAsyncAssetPreload
      (requestAsyncAssetPreload g0 rq)).asyncLoopState.requests ≠ [] := by
    rw [hreq]; simp
  have hg := iteration_some layoutSize _ g1 hne hiter
  have hq1 : g1.preloadTargets
      = (g0.preloadTargets ++ textTargets layoutSize g0.asyncLoopState.requests)
        ++ renderedTarget layoutSize rq :: textTargets layoutSize later := by
    rw [hg]
    show (later.foldl requestAsyncAssetPreload (requestAsyncAssetPreload g0 rq)).preloadTargets
      ++ textTargets layoutSize (later.foldl requestAsyncAssetPreload
          (requestAsyncAssetPreload g0 rq)).asyncLoopState.requests = _
    rw [hreq, (foldl_request_frame later _).1, textTargets_append,
      textTargets_cons_text layoutSize rq later htext]
    simp [requestAsyncAssetPreload]
  have hq : g2.preloadTargets
      = (g0.preloadTargets ++ textTargets layoutSize g0.asyncLoopState.requests)
        ++ renderedTarget layoutSize rq :: (textTargets layoutSize later ++ post) := by
    rw [hqueue, hq1]
    simp
  have hqne : g2.preloadTargets ≠ [] := by rw [hq]; simp
  have hrest : ∀ u ∈ textTargets layoutSize later ++ post, u.type = TARGET_IMAGE →
      u.id ≠ (renderedTarget layoutSize rq).id := by
    intro u hu hty
    rcases List.mem_append.1 hu with hu' | hu'
    · obtain ⟨_, r, hr, hrt, hid⟩ := mem_textTargets layoutSize later u hu'
      rw [hid]
      exact hlater r hr hrt
    · exact hpost u hu' hty
  have hfind : findAsset (apply g2).assets rq.id
      = some { texture := { m_vSize := measuredExtents layoutSize rq } } := by
    show findAsset (g2.preloadTargets.foldl applyTarget g2.assets) rq.id = _
    rw [findAsset_foldl_applyTarget, hq, ← renderedTarget_size_of_fits layoutSize rq hfit]
    exact foldl_lookupStep_last _ _ (renderedTarget layoutSize rq) _ rfl hrest
  have hget : getAssetByID g2 rq.id
      = (some { texture := { m_vSize := measuredExtents layoutSize rq } }, apply g2) := by
    simp [getAssetByID, hbusy, hmiss, hqne, hfind]
  refine ⟨hget, ?_⟩
  intro hd a ha
  rw [hget] at ha
  simp only [Option.some.injEq] at ha
  rw [← ha]
  exact hd

/-- Each request of a well-typed list is paired with the target `renderText`
builds for it. -/
theorem forall₂_renderedTarget (layoutSize : String → String → Int → Int × Int)
    (rs : List SPreloadRequest) (h : ∀ r ∈ rs, wellTypedProps r.props = true) :
    List.Forall₂ (fun r t => textTarget layoutSize r = some t ∧ t.id = r.id)
      rs (rs.map (renderedTarget layoutSize)) := by
  induction rs with
  | nil => exact List.Forall₂.nil
  | cons r rest ih =>
    refine List.Forall₂.cons ?_ (ih (fun u hu => h u (List.mem_cons_of_mem _ hu)))
    exact ⟨textTarget_of_wellTyped layoutSize r (h r (List.mem_cons_self _ _)), rfl⟩

/-- C8 (as amended): `rqs` are submitted one after the other on an empty
buffer, and each text request among them has well-typed properties.  The drain
of the next iteration yields exactly `rqs` in submission order and leaves the
buffer empty; the iteration completes, and the queue has grown by a list `ts`
of targets that matches the requests of kind `TARGET_TEXT` one to one and in
order: each target is the one `renderText` builds for its request and carries
that request's id.  Requests of other kinds add no target and do not stop the
batch. -/
theorem worker_drains_batch (layoutSize : String → String → Int → Int × Int)
    (g : CAsyncResourceGatherer) (rqs : List SPreloadRequest)
    (hempty : g.asyncLoopState.requests = [])
    (htyped : ∀ r ∈ rqs, r.type = TARGET_TEXT → wellTypedProps r.props = true) :
    (drainRequests (rqs.foldl requestAsyncAssetPreload g)).1 = rqs
    ∧ (drainRequests (rqs.foldl requestAsyncAssetPreload g)).2.asyncLoopState.requests = []
    ∧ ∃ g' ts, asyncAssetSpinLockIteration layoutSize (rqs.foldl requestAsyncAssetPreload g)
          = some g'
        ∧ g'.asyncLoopState.requests = []
        ∧ g'.preloadTargets = g.preloadTargets ++ ts
        ∧ List.Forall₂ (fun r t => textTarget layoutSize r = some t ∧ t.id = r.id)
            (rqs.filter (fun r => r.type = TARGET_TEXT)) ts
        ∧ ts.length = (rqs.filter (fun r => r.type = TARGET_TEXT)).length
        ∧ ts.map (fun t => t.id)
            = (rqs.filter (fun r => r.type = TARGET_TEXT)).map (fun r => r.id)
        ∧ g'.assets = g.assets := by
  have hreq : (rqs.foldl requestAsyncAssetPreload g).asyncLoopState.requests = rqs := by
    rw [foldl_request_requests, hempty]; simp
  have hids : (textTargets layoutSize rqs).map (fun t => t.id)
      = (rqs.filter (fun r => r.type = TARGET_TEXT)).map (fun r => r.id) := by
    simp [textTargets, renderedTarget, textTargetOf, Function.comp_def]
  have hlen : (textTargets layoutSize rqs).length
      = (rqs.filter (fun r => r.type = TARGET_TEXT)).length := by
    simp [textTargets]
  have hpair : List.Forall₂ (fun r t => textTarget layoutSize r = some t ∧ t.id = r.id)
      (rqs.filter (fun r => r.type = TARGET_TEXT)) (textTargets layoutSize rqs) := by
    apply forall₂_renderedTarget
    intro r hr
    simp only [List.mem_filter, decide_eq_true_eq] at hr
    exact htyped r hr.1 hr.2
  refine ⟨hreq, rfl, ?_⟩
  by_cases hnil : rqs = []
  · subst hnil
    refine ⟨g, [], ?_, hempty, ?_, List.Forall₂.nil, rfl, rfl, rfl⟩
    · exact iteration_of_empty layoutSize g hempty
    · simp
  · have hne : (rqs.foldl requestAsyncAssetPreload g).asyncLoopState.requests ≠ [] := by
      rw [hreq]; exact hnil
    have ht : ∀ r ∈ (rqs.foldl requestAsyncAssetPreload g).asyncLoopState.requests,
        r.type = TARGET_TEXT → wellTypedProps r.props = true := by
      rw [hreq]; exact htyped
    refine ⟨_, textTargets layoutSize rqs, iteration_of_wellTyped layoutSize _ hne ht, rfl,
      ?_, hpair, hlen, hids, ?_⟩
    · show (rqs.foldl requestAsyncAssetPreload g).preloadTargets
        ++ textTargets layoutSize (rqs.foldl requestAsyncAssetPreload g).asyncLoopState.requests
        = _
      rw [hreq, (foldl_request_frame rqs g).1]
    · exact (foldl_request_frame rqs g).2.1

/-! ## Reachable states -/

theorem gatherWidget_path (imageSize : String → Vector2D) (targets targets' : List SPreloadTarget)
    (c : SWidgetConfig) (h : gatherWidget imageSize targets c = some targets') :
    c.type = "background" → (widgetPath c).isSome = true := by
  intro hb
  unfold gatherWidget at h
  unfold widgetPath
  cases hl : List.lookup "path" c.values with
  | none => simp [hb, hl] at h
  | some v => cases v <;> simp [hb, hl, anyCastCString] at h ⊢

theorem gatherLoop_paths (imageSize : String → Vector2D) (ws : List SWidgetConfig)
    (targets targets' : List SPreloadTarget)
    (h : gatherLoop imageSize ws targets = some targets') :
    ∀ c ∈ ws, c.type = "background" → (widgetPath c).isSome = true := by
  induction ws generalizing targets with
  | nil => intro c hc; cases hc
  | cons d rest ih =>
    unfold gatherLoop at h
    cases hd : gatherWidget imageSize targets d with
    | none => simp [hd] at h
    | some t1 =>
      simp only [hd] at h
      intro c hc
      rcases List.mem_cons.1 hc with rfl | hc'
      · exact gatherWidget_path imageSize targets t1 c hd
      · exact ih t1 h c hc'

theorem backgroundTargets_ids (imageSize : String → Vector2D) (ws : List SWidgetConfig)
    (h : ∀ c ∈ ws, c.type = "background" → (widgetPath c).isSome = true)
    (t : SPreloadTarget) (ht : t ∈ backgroundTargets imageSize ws) :
    t.id ∈ gatheredIds ws := by
  simp only [backgroundTargets, List.mem_map, List.mem_filter, decide_eq_true_eq] at ht
  obtain ⟨c, ⟨hc, hb⟩, rfl⟩ := ht
  simp only [gatheredIds, List.mem_filterMap, List.mem_filter, decide_eq_true_eq]
  refine ⟨c, ⟨hc, hb⟩, ?_⟩
  have hp := h c hc hb
  cases hw : widgetPath c with
  | none => simp [hw] at hp
  | some p => simp [backgroundTarget]

theorem gather_some (imageSize : String → Vector2D) (ws : List SWidgetConfig)
    (g g' : CAsyncResourceGatherer) (h : gather imageSize ws g = some g') :
    (∀ c ∈ ws, c.type = "background" → (widgetPath c).isSome = true)
    ∧ g' = { g with preloadTargets := g.preloadTargets ++ backgroundTargets imageSize ws,
                    ready := true } := by
  unfold gather at h
  cases hl : gatherLoop imageSize ws g.preloadTargets with
  | none => simp [hl] at h
  | some targets =>
    have hp := gatherLoop_paths imageSize ws _ _ hl
    rw [gatherLoop_of_paths imageSize ws _ hp] at hl
    simp only [Option.some.injEq] at hl
    simp only [hl.symm, gatherLoop_of_paths imageSize ws _ hp, Option.some.injEq] at h
    exact ⟨hp, h.symm⟩

theorem allSubmitted_mono (ids ids' : List String) (g : CAsyncResourceGatherer)
    (hsub : ∀ i ∈ ids, i ∈ ids') (h : AllSubmitted ids g) : AllSubmitted ids' g :=
  ⟨fun k hk => hsub _ (h.1 k hk), fun t ht => hsub _ (h.2.1 t ht),
   fun r hr => hsub _ (h.2.2 r hr)⟩

theorem allSubmitted_apply (ids : List String) (g : CAsyncResourceGatherer)
    (h : AllSubmitted ids g) : AllSubmitted ids (apply g) := by
  refine ⟨?_, ?_, h.2.2⟩
  · intro k hk
    rcases (mem_assetKeys_foldl_applyTarget g.preloadTargets g.assets k).1 hk with hk' | hk'
    · exact h.1 k hk'
    · obtain ⟨t, ht, _, rfl⟩ := hk'
      exact h.2.1 t ht
  · intro t ht
    cases ht

theorem allSubmitted_getAssetByID (ids : List String) (g : CAsyncResourceGatherer)
    (id : String) (h : AllSubmitted ids g) : AllSubmitted ids (getAssetByID g id).2 := by
  unfold getAssetByID
  by_cases hb : g.asyncLoopState.busy = true
  · simpa [hb] using h
  · cases hf : findAsset g.assets id with
    | some a => simpa [hb, hf] using h
    | none =>
      by_cases hq : g.preloadTargets = []
      · simpa [hb, hf, hq] using h
      · simpa [hb, hf, hq] using allSubmitted_apply ids g h

theorem allSubmitted_iteration (layoutSize : String → String → Int → Int × Int)
    (ids : List String) (g g' : CAsyncResourceGatherer)
    (hi : asyncAssetSpinLockIteration layoutSize g = some g')
    (h : AllSubmitted ids g) : AllSubmitted ids g' := by
  by_cases he : g.asyncLoopState.requests = []
  · rw [iteration_of_empty layoutSize g he] at hi
    simp only [Option.some.injEq] at hi
    rw [← hi]
    exact h
  · rw [iteration_some layoutSize g g' he hi]
    refine ⟨h.1, ?_, ?_⟩
    · intro t ht
      rcases List.mem_append.1 ht with ht' | ht'
      · exact h.2.1 t ht'
      · obtain ⟨_, r, hr, _, hid⟩ := mem_textTargets layoutSize _ t ht'
        rw [hid]
        exact h.2.2 r hr
    · intro r hr
      cases hr

/-- Every reachable state holds only ids that were put forward. -/
theorem reachable_allSubmitted (imageSize : String → Vector2D)
    (layoutSize : String → String → Int → Int × Int)
    (ids : List String) (g : CAsyncResourceGatherer)
    (h : Reachable imageSize layoutSize ids g) : AllSubmitted ids g := by
  induction h with
  | init =>
    exact ⟨fun _ hk => (by cases hk), fun _ ht => (by cases ht), fun _ hr => (by cases hr)⟩
  | gatherStep ids g g' ws _ hg ih =>
    obtain ⟨hp, rfl⟩ := gather_some imageSize ws g g' hg
    refine ⟨?_, ?_, ?_⟩
    · intro k hk
      exact List.mem_append_left _ (ih.1 k hk)
    · intro t ht
      rcases List.mem_append.1 ht with ht' | ht'
      · exact List.mem_append_left _ (ih.2.1 t ht')
      · exact List.mem_append_right _ (backgroundTargets_ids imageSize ws hp t ht')
    · intro r hr
      exact List.mem_append_left _ (ih.2.2 r hr)
  | requestStep ids g rq _ ih =>
    refine ⟨?_, ?_, ?_⟩
    · intro k hk
      exact List.mem_append_left _ (ih.1 k hk)
    · intro t ht
      exact List.mem_append_left _ (ih.2.1 t ht)
    · intro r hr
      rcases List.mem_append.1 hr with hr' | hr'
      · exact List.mem_append_left _ (ih.2.2 r hr')
      · apply List.mem_append_right
        simp only [List.mem_singleton] at hr' ⊢
        rw [hr']
  | workerStep ids g g' _ hi ih => exact allSubmitted_iteration layoutSize ids g g' hi ih
  | applyStep ids g _ ih => exact allSubmitted_apply ids g ih
  | getStep ids g id _ ih => exact allSubmitted_getAssetByID ids g id ih

/-- C3: in every state reachable from the initial gatherer by `gather`,
`requestAsyncAssetPreload`, worker-loop iterations, `apply` and `getAssetByID`
steps, `getAssetByID(id)` answers "not found" for every `id` that is neither
"background:" + path of a gathered background descriptor nor the id of a
submitted request. -/
theorem getAssetByID_never_submitted (imageSize : String → Vector2D)
    (layoutSize : String → String → Int → Int × Int)
    (ids : List String) (g : CAsyncResourceGatherer) (id : String)
    (hreach : Reachable imageSize layoutSize ids g) (hid : id ∉ ids) :
    (getAssetByID g id).1 = none := by
  have hall := reachable_allSubmitted imageSize layoutSize ids g hreach
  apply getAssetByID_none_of_absent
  · intro hk
    exact hid (hall.1 id hk)
  · intro t ht _ he
    apply hid
    rw [← he]
    exact hall.2.1 t ht

/-! ## The `pending` flag and the two mutexes -/

/-- No worker iteration changes `pending`: the flag is only ever set, by
`requestAsyncAssetPreload`. -/
theorem iteration_keeps_pending (layoutSize : String → String → Int → Int × Int)
    (g g' : CAsyncResourceGatherer)
    (h : asyncAssetSpinLockIteration layoutSize g = some g') :
    g'.asyncLoopState.pending = g.asyncLoopState.pending := by
  by_cases he : g.asyncLoopState.requests = []
  · rw [iteration_of_empty layoutSize g he] at h
    simp only [Option.some.injEq] at h
    rw [← h]
  · rw [iteration_some layoutSize g g' he h]

/-- The lock order inversion is also reached from the initial state when the
worker leaves `wait_for` by timeout while a requester holds `requestMutex`. -/
theorem lock_order_inversion_after_timeout :
    ∃ s, runSchedule [.worker, .worker, .requester, .worker, .requester] initialLockState
          = some s
      ∧ s.cvmtx = some .worker ∧ s.requestMutex = some .requester
      ∧ lockStep s .worker = none ∧ lockStep s .requester = none :=
  ⟨_, rfl, rfl, rfl, rfl, rfl⟩

/-- C9, the code at the failing run: one request is submitted to the initial
gatherer and one worker iteration drains it.  Afterwards the buffer is empty
and `pending` is still true, so the next iteration does not enter `wait_for`. -/
theorem pending_not_reset_by_drain :
    ∃ g', asyncAssetSpinLockIteration sampleLayout
            (requestAsyncAssetPreload initialGatherer requestLocked) = some g'
      ∧ g'.asyncLoopState.requests = []
      ∧ g'.asyncLoopState.pending = true
      ∧ entersWait g' = false :=
  ⟨_, rfl, rfl, rfl, rfl⟩

/-- C10, the code at the failing run: after three steps of a call of
`requestAsyncAssetPreload` the requester holds `requestMutex` and `cvmtx`
together; and the schedule `deadlockSchedule` leads to a state in which the
worker holds `cvmtx` and stands before `requestMutex.lock()`, the requester
holds `requestMutex` and stands before `unique_lock lk(cvmtx)`, and neither
thread can take a step. -/
theorem lock_order_inversion_deadlock :
    (∃ s, runSchedule [.requester, .requester, .requester] initialLockState = some s
      ∧ s.requestMutex = some .requester ∧ s.cvmtx = some .requester)
    ∧ (∃ s, runSchedule deadlockSchedule initialLockState = some s
      ∧ s.worker = .lockRequestMutex ∧ s.cvmtx = some .worker
      ∧ s.requester = .lockCvmtx ∧ s.requestMutex = some .requester
      ∧ lockStep s .worker = none ∧ lockStep s .requester = none) :=
  ⟨⟨_, rfl, rfl, rfl⟩, ⟨_, rfl, rfl, rfl, rfl, rfl, rfl, rfl⟩⟩

/-! ## Concrete runs -/

/-- C1 at `sampleGatherer`, which is not busy: "label" is not cached but is
carried by a queued image target, so the lookup runs `apply` once and returns
the asset found in the cache afterwards. -/
theorem getAssetByID_not_busy_witness :
    sampleGatherer.asyncLoopState.busy = false
    ∧ getAssetByID sampleGatherer "label"
        = (findAsset (apply sampleGatherer).assets "label", apply sampleGatherer)
    ∧ (getAssetByID sampleGatherer "label").2.applyCalls = sampleGatherer.applyCalls + 1 :=
  ⟨rfl, (getAssetByID_not_busy sampleGatherer "label" rfl).2.2.1 (by decide) (by decide)⟩

/-- C2 at `sampleGatherer` made busy: the cached id "background:/a.png" is not found. -/
theorem getAssetByID_busy_witness :
    getAssetByID
        { sampleGatherer with
          asyncLoopState := { sampleGatherer.asyncLoopState with busy := true } }
        "background:/a.png"
      = (none,
         { sampleGatherer with
           asyncLoopState := { sampleGatherer.asyncLoopState with busy := true } }) :=
  getAssetByID_busy _ "background:/a.png" rfl

/-- C3 at `gatheredAndRendered`, reached by a gather pass over `sampleWidgets`,
the submission of `requestLocked` and one worker iteration: the submitted id
"label" and the gathered id "background:/a.png" are found, the id "clock",
which was never put forward, is not. -/
theorem getAssetByID_never_submitted_witness :
    "clock" ∉ (([] ++ gatheredIds sampleWidgets) ++ [requestLocked.id])
    ∧ (getAssetByID gatheredAndRendered "clock").1 = none
    ∧ (getAssetByID gatheredAndRendered "label").1
        = some { texture := { m_vSize := { x := 96, y := 16 } } }
    ∧ (getAssetByID gatheredAndRendered "background:/a.png").1
        = some { texture := { m_vSize := { x := 6, y := 8 } } } :=
  ⟨by decide,
   getAssetByID_never_submitted sampleImageSize sampleLayout
     (([] ++ gatheredIds sampleWidgets) ++ [requestLocked.id]) gatheredAndRendered "clock"
     (Reachable.workerStep _ (requestAsyncAssetPreload
          { initialGatherer with
            preloadTargets := backgroundTargets sampleImageSize sampleWidgets,
            ready := true } requestLocked) gatheredAndRendered
        (Reachable.requestStep _ _ requestLocked
          (Reachable.gatherStep [] initialGatherer _ sampleWidgets Reachable.init
            (gather_background_targets sampleImageSize sampleWidgets initialGatherer rfl
              (by decide)).1))
        (by decide))
     (by decide),
   by decide, by decide⟩

/-- C4 on the two targets of `duplicateQueue`, over the cache of `sampleGatherer`. -/
theorem apply_same_id_twice_witness :
    ((assetKeys (apply { sampleGatherer with preloadTargets :=
          [] ++ { type := TARGET_IMAGE, id := "a", size := { x := 1, y := 1 } }
            :: ([] ++ { type := TARGET_IMAGE, id := "a", size := { x := 2, y := 2 } }
              :: []) }).assets).count "a" = 1
      ∧ findAsset (apply { sampleGatherer with preloadTargets :=
          [] ++ { type := TARGET_IMAGE, id := "a", size := { x := 1, y := 1 } }
            :: ([] ++ { type := TARGET_IMAGE, id := "a", size := { x := 2, y := 2 } }
              :: []) }).assets "a"
          = some { texture := { m_vSize := { x := 2, y := 2 } } })
    ∧ ((assetKeys (apply { apply { sampleGatherer with preloadTargets :=
          [] ++ { type := TARGET_IMAGE, id := "a", size := { x := 1, y := 1 } } :: [] } with
          preloadTargets :=
            [] ++ { type := TARGET_IMAGE, id := "a", size := { x := 2, y := 2 } }
              :: [] }).assets).count "a" = 1
      ∧ findAsset (apply { apply { sampleGatherer with preloadTargets :=
          [] ++ { type := TARGET_IMAGE, id := "a", size := { x := 1, y := 1 } } :: [] } with
          preloadTargets :=
            [] ++ { type := TARGET_IMAGE, id := "a", size := { x := 2, y := 2 } }
              :: [] }).assets "a"
          = some { texture := { m_vSize := { x := 2, y := 2 } } }) :=
  apply_same_id_twice sampleGatherer
    { type := TARGET_IMAGE, id := "a", size := { x := 1, y := 1 } }
    { type := TARGET_IMAGE, id := "a", size := { x := 2, y := 2 } }
    [] [] [] [] (by decide) rfl rfl rfl (by decide)

/-- C5 as stated fails at `duplicateQueue`: the first of the two queued image
targets with id "a" does not have its dimensions in the cache after `apply`. -/
theorem apply_earlier_duplicate_overwritten :
    ¬ (∀ t ∈ duplicateQueue.preloadTargets, t.type = TARGET_IMAGE →
        findAsset (apply duplicateQueue).assets t.id
          = some { texture := { m_vSize := t.size } }) := by
  decide

/-- C5 (as amended) at `duplicateQueue`: the second target is the last one with
id "a" and gives the entry its dimensions. -/
theorem apply_queue_witness :
    findAsset (apply duplicateQueue).assets "a"
      = some { texture := { m_vSize := { x := 2, y := 2 } } } :=
  (apply_queue duplicateQueue).2.2.1
    [{ type := TARGET_IMAGE, id := "a", size := { x := 1, y := 1 } }]
    { type := TARGET_IMAGE, id := "a", size := { x := 2, y := 2 } } [] rfl rfl (by decide)

/-- C6 as stated fails at a background descriptor without a `path` property:
`values.at("path")` throws, no target is queued and `ready` is never set. -/
theorem gather_stops_on_missing_path :
    ¬ ∃ g', gather sampleImageSize [{ type := "background", values := [] }] initialGatherer
              = some g'
        ∧ g'.preloadTargets.length = 1 ∧ g'.ready = true := by
  rintro ⟨g', h, _⟩
  have hnone : gather sampleImageSize [{ type := "background", values := [] }]
      initialGatherer = none := by decide
  rw [hnone] at h
  cases h

/-- C6 (as amended) at `sampleWidgets`. -/
theorem gather_background_targets_witness :
    initialGatherer.preloadTargets = []
    ∧ (∀ c ∈ sampleWidgets, c.type = "background" → (widgetPath c).isSome = true)
    ∧ gather sampleImageSize sampleWidgets initialGatherer
        = some { initialGatherer with
                 preloadTargets := backgroundTargets sampleImageSize sampleWidgets,
                 ready := true } :=
  ⟨rfl, by decide,
   (gather_background_targets sampleImageSize sampleWidgets initialGatherer rfl
      (by decide)).1⟩

/-- C7 as stated fails for `requestLocked` when `requestUnlocked`, with the same
id, is submitted after it: both are drained and rendered, the lookup of the id
misses the cache and triggers `apply`, and the asset returned has the extents of
the later request (216x24), not those measured for `requestLocked` (96x16). -/
theorem text_asset_overwritten_by_later_request :
    ∃ g', asyncAssetSpinLockIteration sampleLayout
            (requestAsyncAssetPreload (requestAsyncAssetPreload initialGatherer requestLocked)
              requestUnlocked) = some g'
      ∧ g'.asyncLoopState.busy = false
      ∧ findAsset g'.assets requestLocked.id = none
      ∧ (getAssetByID g' requestLocked.id).1
          = some { texture := { m_vSize := { x := 216, y := 24 } } }
      ∧ measuredExtents sampleLayout requestLocked = { x := 96, y := 16 }
      ∧ (getAssetByID g' requestLocked.id).1
          ≠ some { texture := { m_vSize := measuredExtents sampleLayout requestLocked } } :=
  ⟨_, rfl, rfl, rfl, by decide, by decide, by decide⟩

/-- C7 (as amended) for `requestLocked` followed by a request with another id,
the lookup coming right after the iteration. -/
theorem text_asset_has_measured_extents_witness :
    requestLocked.type = TARGET_TEXT
    ∧ fontSizeFits requestLocked
    ∧ asyncAssetSpinLockIteration sampleLayout
        ([requestImage].foldl requestAsyncAssetPreload
          (requestAsyncAssetPreload initialGatherer requestLocked)) = some afterLockedBatch
    ∧ (∀ r ∈ [requestImage], r.type = TARGET_TEXT → r.id ≠ requestLocked.id)
    ∧ afterLockedBatch.asyncLoopState.busy = false
    ∧ findAsset afterLockedBatch.assets requestLocked.id = none
    ∧ measuredExtents sampleLayout requestLocked = { x := 96, y := 16 }
    ∧ getAssetByID afterLockedBatch requestLocked.id
      = (some { texture := { m_vSize := measuredExtents sampleLayout requestLocked } },
         apply afterLockedBatch) :=
  ⟨rfl, by decide, by decide, by decide, rfl, rfl, by decide,
   (text_asset_has_measured_extents sampleLayout initialGatherer afterLockedBatch
      afterLockedBatch requestLocked [requestImage] [] rfl (by decide) (by decide)
      (by decide) rfl (by decide) (by decide) rfl).1⟩

/-- At font size 2097152 the `int` product with `PANGO_SCALE` wraps to -2^31:
with a layout as wide and as high as the size handed to Pango, the target built
by `renderText` is -2097152 x -2097152, where the measured extents for that font
size would be 2097152 x 2097152. -/
theorem text_extents_wrap_at_huge_font_size :
    textTarget (fun _ _ size => (size, size)) requestHuge
        = some { type := TARGET_IMAGE, id := "huge",
                 size := { x := -2097152, y := -2097152 } }
    ∧ measuredExtents (fun _ _ size => (size, size)) requestHuge
        = { x := 2097152, y := 2097152 }
    ∧ wellTypedProps requestHuge.props = true :=
  ⟨by decide, by decide, by decide⟩

/-- C8 as stated fails at a text request whose `font_size` holds a string: the
cast in `renderText` throws, the iteration does not complete and no target is
appended for the request. -/
theorem worker_stops_on_ill_typed_request :
    ¬ ∃ g', asyncAssetSpinLockIteration sampleLayout
              ([requestIllTyped].foldl requestAsyncAssetPreload initialGatherer) = some g'
        ∧ g'.preloadTargets.length = 1 := by
  rintro ⟨g', h, _⟩
  have hnone : asyncAssetSpinLockIteration sampleLayout
      ([requestIllTyped].foldl requestAsyncAssetPreload initialGatherer) = none := by decide
  rw [hnone] at h
  cases h

/-- C8 (as amended) at three requests, the second of an unsupported kind: the
drain yields the three requests, and the iteration appends one target for each
of the two text requests. -/
theorem worker_drains_batch_witness :
    initialGatherer.asyncLoopState.requests = []
    ∧ (∀ r ∈ [requestLocked, requestImage, requestUnlocked],
        r.type = TARGET_TEXT → wellTypedProps r.props = true)
    ∧ ((drainRequests ([requestLocked, requestImage, requestUnlocked].foldl
          requestAsyncAssetPreload initialGatherer)).1
          = [requestLocked, requestImage, requestUnlocked]
      ∧ (drainRequests ([requestLocked, requestImage, requestUnlocked].foldl
          requestAsyncAssetPreload initialGatherer)).2.asyncLoopState.requests = []
      ∧ ∃ g' ts, asyncAssetSpinLockIteration sampleLayout
            ([requestLocked, requestImage, requestUnlocked].foldl
              requestAsyncAssetPreload initialGatherer) = some g'
          ∧ g'.asyncLoopState.requests = []
          ∧ g'.preloadTargets = initialGatherer.preloadTargets ++ ts
          ∧ List.Forall₂ (fun r t => textTarget sampleLayout r = some t ∧ t.id = r.id)
              ([requestLocked, requestImage, requestUnlocked].filter
                (fun r => r.type = TARGET_TEXT)) ts
          ∧ ts.length = ([requestLocked, requestImage, requestUnlocked].filter
                (fun r => r.type = TARGET_TEXT)).length
          ∧ ts.map (fun t => t.id)
              = ([requestLocked, requestImage, requestUnlocked].filter
                  (fun r => r.type = TARGET_TEXT)).map (fun r => r.id)
          ∧ g'.assets = initialGatherer.assets)
    ∧ (asyncAssetSpinLockIteration sampleLayout
          ([requestLocked, requestImage, requestUnlocked].foldl
            requestAsyncAssetPreload initialGatherer)).map (fun g => g.preloadTargets)
        = some [{ type := TARGET_IMAGE, id := "label", size := { x := 96, y := 16 } },
                { type := TARGET_IMAGE, id := "label", size := { x := 216, y := 24 } }] :=
  ⟨rfl, by decide,
   worker_drains_batch sampleLayout initialGatherer
      [requestLocked, requestImage, requestUnlocked] rfl (by decide),
   by decide⟩

end Hyprlock
